import Mathlib

/-!
Verification development for the span/tensor columnar containers and the
IOB-to-span decoder of `text-extensions-for-pandas`.

The Python source is shallowly embedded:
* numpy integer arrays become `List Int`; numpy positional indexing
  (negative indices wrap once from the end, anything else raises
  `IndexError`) becomes `npGetItem` / `npTake` returning `Except`.
* pandas DataFrames consumed by the decoder become `TokenFeatures`,
  a list of named columns; `.iloc` positional lookup becomes `ilocStr`.
* exceptions become `Except String`.
-/

deriving instance DecidableEq for Except

/-- End-relative resolution of a possibly negative numpy index against an
array of length `n`. -/
def npWrap (n : Nat) (i : Int) : Int :=
  if i < 0 then i + n else i

/-- Scalar numpy-style positional indexing on a 1-D array: a negative index
`i` is taken end-relative as `i + len`; an index that is still out of range
raises. This is the semantics of `arr[i]` and `np.take` (mode "raise") used
throughout `token_span.py`. -/
def npGetItem {α : Type} (xs : List α) (i : Int) : Except String α :=
  if h : 0 ≤ npWrap xs.length i ∧ (npWrap xs.length i).toNat < xs.length then
    .ok (xs.get ⟨(npWrap xs.length i).toNat, h.2⟩)
  else .error "index out of bounds"

/-- Gather semantics of numpy fancy indexing / `np.take` with an index array:
every index is resolved by `npGetItem`; the first out-of-range index raises. -/
def npTake {α : Type} (xs : List α) : List Int → Except String (List α)
  | [] => .ok []
  | i :: is => match npGetItem xs i with
    | .error e => .error e
    | .ok x => match npTake xs is with
      | .error e => .error e
      | .ok rest => .ok (x :: rest)

/-- Modelled from the spec: `CharSpanArray` (its file `char_span.py` is not
part of the sources) is the token table: a shared document text plus parallel
per-token character `begin`/`end` arrays (§3 of the spec). The spec requires
concatenation compatibility to be *structural identity* of the shared
reference, not value equality, so the model carries an opaque reference tag
`ref` assigned at construction; two separately constructed arrays with equal
contents have different tags. -/
structure CharSpanArray where
  ref : Nat
  target_text : String
  begins : List Int
  ends : List Int
deriving DecidableEq

/-- A single span with token offsets (`TokenSpan` in `token_span.py`).
The character-level fields `begin_`/`end_` are the `CharSpan` superclass
state set by `super().__init__(tokens.target_text, begin_char_off,
end_char_off)`; per the spec (§3) the `CharSpan` constructor is a plain
data holder, so no further checks happen there. -/
structure TokenSpan where
  target_text : String
  begin_ : Int
  end_ : Int
  tokens : CharSpanArray
  begin_token : Int
  end_token : Int
deriving DecidableEq

/-- `TokenSpan.__init__`: resolves the character offsets eagerly;
`begin_char_off = tokens.begin[begin_token]` and `end_char_off` is
`begin_char_off` when `begin_token == end_token`, else
`tokens.end[end_token - 1]`. The numpy lookups can raise. -/
def TokenSpan.init (tokens : CharSpanArray) (begin_token end_token : Int) :
    Except String TokenSpan :=
  match npGetItem tokens.begins begin_token with
  | .error e => .error e
  | .ok begin_char_off =>
    match (if begin_token == end_token then Except.ok begin_char_off
           else npGetItem tokens.ends (end_token - 1)) with
    | .error e => .error e
    | .ok end_char_off =>
      .ok ⟨tokens.target_text, begin_char_off, end_char_off,
           tokens, begin_token, end_token⟩

/-- A column of token-offset spans (`TokenSpanArray` in `token_span.py`):
the shared token table plus parallel `begin_tokens`/`end_tokens` arrays. -/
structure TokenSpanArray where
  tokens : CharSpanArray
  begin_tokens : List Int
  end_tokens : List Int
deriving DecidableEq

/-- `TokenSpanArray.__init__`: the constructor body is three attribute
assignments and nothing else — it performs no validation of the given
offsets, so it can never fail; the `Except` result type only records that
fact against the fallible-construction contract claimed by the spec. -/
def TokenSpanArray.init (tokens : CharSpanArray)
    (begin_tokens end_tokens : List Int) : Except String TokenSpanArray :=
  .ok ⟨tokens, begin_tokens, end_tokens⟩

/-- `TokenSpanArray.__len__` is `len(self._begin_tokens)`. -/
def TokenSpanArray.length (a : TokenSpanArray) : Nat :=
  a.begin_tokens.length

/-- `TokenSpanArray.__getitem__` with an integer index: reads
`self._begin_tokens[item]` and `self._end_tokens[item]` (numpy scalar
indexing, so negative indices wrap) and builds a `TokenSpan`. -/
def TokenSpanArray.getItemInt (a : TokenSpanArray) (item : Int) :
    Except String TokenSpan :=
  match npGetItem a.begin_tokens item with
  | .error e => .error e
  | .ok b => match npGetItem a.end_tokens item with
    | .error e => .error e
    | .ok e_ => TokenSpan.init a.tokens b e_

/-- `TokenSpanArray.__getitem__` with a non-integer item (an index sequence):
`TokenSpanArray(self._tokens, self.begin_token[item], self.end_token[item])`,
where the numpy fancy indexing can raise. -/
def TokenSpanArray.getItemSeq (a : TokenSpanArray) (item : List Int) :
    Except String TokenSpanArray :=
  match npTake a.begin_tokens item with
  | .error e => .error e
  | .ok bs => match npTake a.end_tokens item with
    | .error e => .error e
    | .ok es => .ok ⟨a.tokens, bs, es⟩

/-- `TokenSpanArray._concat_same_type`: raises on an empty input list;
otherwise requires every input's `tokens` to be the same as the first's
(the source comments "Require exact object equality of the tokens for
now", modelled here as equality of `CharSpanArray` values including the
identity tag `ref`), and concatenates the begin/end arrays in input order. -/
def TokenSpanArray.concat_same_type (to_concat : List TokenSpanArray) :
    Except String TokenSpanArray :=
  match to_concat with
  | [] => .error "cannot concatenate zero TokenSpanArrays"
  | first :: rest =>
    if (first :: rest).all (fun c => decide (c.tokens = first.tokens)) then
      .ok ⟨first.tokens,
           ((first :: rest).map (fun a => a.begin_tokens)).flatten,
           ((first :: rest).map (fun a => a.end_tokens)).flatten⟩
    else .error "Can only concatenate spans that are over the same set of tokens"

/-- `TokenSpanArray.take`: with `allow_fill` true, the source gathers only
when every index is non-negative and raises `ValueError` otherwise; with
`allow_fill` false it gathers with the standard end-relative treatment of
negative indices. Both gathers are `np.take` on the begin and end arrays. -/
def TokenSpanArray.take (a : TokenSpanArray) (indices : List Int)
    (allow_fill : Bool) : Except String TokenSpanArray :=
  if allow_fill then
    if indices.all (fun i => decide (0 ≤ i)) then
      match npTake a.begin_tokens indices with
      | .error e => .error e
      | .ok bs => match npTake a.end_tokens indices with
        | .error e => .error e
        | .ok es => .ok ⟨a.tokens, bs, es⟩
    else .error "allow_fill mode not implemented"
  else
    match npTake a.begin_tokens indices with
    | .error e => .error e
    | .ok bs => match npTake a.end_tokens indices with
      | .error e => .error e
      | .ok es => .ok ⟨a.tokens, bs, es⟩

/-- The memoized `TokenSpanArray.begin` property: the character offsets of
the span begins, `self._tokens.begin[self.begin_token]` (a numpy gather). -/
def TokenSpanArray.begin (a : TokenSpanArray) : Except String (List Int) :=
  npTake a.tokens.begins a.begin_tokens

/-- The elementwise masked overwrite `ret[mask] = begin[mask]` with
`mask = (end_token == begin_token)` used by `TokenSpanArray.end`. -/
def maskedReplace : List Int → List Int → List Int → List Int → List Int
  | b :: bs, e :: es, x :: xs, y :: ys =>
    (if e == b then x else y) :: maskedReplace bs es xs ys
  | _, _, _, _ => []

/-- The memoized `TokenSpanArray.end` property: starts from
`self._tokens.end[self.end_token - 1]`, then replaces the end offset with
the begin offset wherever the token length is zero. -/
def TokenSpanArray.end_ (a : TokenSpanArray) : Except String (List Int) :=
  match npTake a.tokens.ends (a.end_tokens.map (fun e => e - 1)) with
  | .error e => .error e
  | .ok ret =>
    match TokenSpanArray.begin a with
    | .error e => .error e
    | .ok beg => .ok (maskedReplace a.begin_tokens a.end_tokens beg ret)

/-- A two-token token table over the text "foo bar", used as concrete
witness data. -/
def ctoksA : CharSpanArray := ⟨0, "foo bar", [0, 4], [3, 7]⟩

/-- A token table with the same contents as `ctoksA` but constructed
separately, hence a different identity tag. -/
def ctoksB : CharSpanArray := ⟨1, "foo bar", [0, 4], [3, 7]⟩

/-- A column of a token-features DataFrame as consumed by `iob_to_spans`:
either a column of strings (the IOB tags and entity-type labels) or the
column of token character spans. -/
inductive Column where
  | strs : List String → Column
  | spans : CharSpanArray → Column
deriving DecidableEq

/-- The token-features DataFrame consumed by `iob_to_spans`: named columns
of equal length, with the default `RangeIndex` (row labels are positions,
as produced by `make_tokens_and_features`). -/
structure TokenFeatures where
  cols : List (String × Column)
deriving DecidableEq

/-- Column selection `token_features[name]` for a string-valued column;
a missing name raises `KeyError`. -/
def TokenFeatures.getStrCol (tf : TokenFeatures) (name : String) :
    Except String (List String) :=
  match tf.cols.lookup name with
  | some (.strs l) => .ok l
  | some (.spans _) => .error "column is not a string column"
  | none => .error "KeyError"

/-- Column selection `token_features[name].values` for the character-span
column; a missing name raises `KeyError`. -/
def TokenFeatures.getSpanCol (tf : TokenFeatures) (name : String) :
    Except String CharSpanArray :=
  match tf.cols.lookup name with
  | some (.spans a) => .ok a
  | some (.strs _) => .error "column is not a span column"
  | none => .error "KeyError"

/-- `df.iloc[i][col]` on the tag column: strictly positional lookup that
raises `IndexError` ("positional indexers are out-of-bounds") past the end. -/
def ilocStr (tags : List String) (i : Nat) : Except String String :=
  match tags.get? i with
  | some t => .ok t
  | none => .error "positional indexers are out-of-bounds"

/-- `df.iloc[index_array][col]`: every position is looked up; any
out-of-bounds position raises. -/
def ilocAll (tags : List String) : List Nat → Except String (List String)
  | [] => .ok []
  | i :: is => match ilocStr tags i with
    | .error e => .error e
    | .ok t => match ilocAll tags is with
      | .error e => .error e
      | .ok rest => .ok (t :: rest)

/-- One row of the decoder's `entity_prefixes` DataFrame in `iob_to_spans`:
an in-progress entity `[begin_, end_)` (token offsets) with its seeding
entity type and the tag of the token following `end_ - 1`. -/
structure PendingEntity where
  ent_type : String
  begin_ : Nat
  end_ : Nat
  next_tag : String
deriving DecidableEq

/-- Builds the seeded `entity_prefixes` rows from the parallel columns
`ent_type`, `begin` (= the B positions) and `next_tag`; `end` is
`begin + 1`. The three lists always have equal length. -/
def mkPending : List String → List Nat → List String → List PendingEntity
  | ty :: tys, i :: is, nt :: nts => ⟨ty, i, i + 1, nt⟩ :: mkPending tys is nts
  | _, _, _ => []

/-- One extension step of the loop body: `incomplete["end"] += 1` followed
by `next_tag = token_features.iloc[incomplete["end"]][iob_col].values`;
the `iloc` lookup raises when an extended end runs past the table. -/
def extendAll (tags : List String) :
    List PendingEntity → Except String (List PendingEntity)
  | [] => .ok []
  | p :: ps =>
    match ilocStr tags (p.end_ + 1) with
    | .error e => .error e
    | .ok nt =>
      match extendAll tags ps with
      | .error e => .error e
      | .ok rest => .ok ({ p with end_ := p.end_ + 1, next_tag := nt } :: rest)

/-- The iterative widening loop of `iob_to_spans`: each round closes the
prefixes whose `next_tag` is in `{"O", "B"}` (appending them to the result
in round order) and extends the rest by one token. Every round strictly
increases each surviving prefix's end and ends beyond the table raise, so
`tags.length + 1` rounds of fuel can never run out. -/
def expandPrefixes (tags : List String) :
    Nat → List PendingEntity → List PendingEntity →
    Except String (List PendingEntity)
  | _, [], acc => .ok acc
  | 0, _ :: _, _ => .error "fuel exhausted"
  | fuel + 1, p :: ps, acc =>
    let entity_prefixes := p :: ps
    let complete := entity_prefixes.filter
      (fun q => q.next_tag == "O" || q.next_tag == "B")
    let incomplete := entity_prefixes.filter
      (fun q => !(q.next_tag == "O" || q.next_tag == "B"))
    match extendAll tags incomplete with
    | .error e => .error e
    | .ok extended => expandPrefixes tags fuel extended (acc ++ complete)

/-- Insertion step of the final `sort_values("begin")`. -/
def insertByBegin (p : PendingEntity) :
    List PendingEntity → List PendingEntity
  | [] => [p]
  | q :: qs =>
    if p.begin_ ≤ q.begin_ then p :: q :: qs else q :: insertByBegin p qs

/-- The final `all_entities.sort_values("begin")`: sorts the finalized
entities by begin token offset. Every entity stems from a distinct `"B"`
row, so begin keys are distinct and any correct sort produces this order. -/
def sortByBegin : List PendingEntity → List PendingEntity
  | [] => []
  | p :: ps => insertByBegin p (sortByBegin ps)

/-- The body of `iob_to_spans` up to and including the construction of the
entity `TokenSpanArray` (source lines 246–282): seeds one-token prefixes at
the `"B"` rows — reading the per-entity types from the column literally
named `"ent_type"` — expands them iteratively, sorts by begin offset, and
pairs the span array with the carried entity-type values. -/
def iobToSpansCore (tf : TokenFeatures)
    (iob_col_name char_span_col_name : String) :
    Except String (TokenSpanArray × List String) :=
  match tf.getStrCol iob_col_name with
  | .error e => .error e
  | .ok tags =>
    match tf.getStrCol "ent_type" with
    | .error e => .error e
    | .ok type_col =>
      let first_tokens :=
        (List.range tags.length).filter (fun i => tags.getD i "" == "B")
      let entity_types := first_tokens.map (fun i => type_col.getD i "")
      match ilocAll tags (first_tokens.map (fun i => i + 1)) with
      | .error e => .error e
      | .ok next_tags =>
        let entity_prefixes := mkPending entity_types first_tokens next_tags
        match expandPrefixes tags (tags.length + 1) entity_prefixes [] with
        | .error e => .error e
        | .ok all_entities =>
          let sorted := sortByBegin all_entities
          match tf.getSpanCol char_span_col_name with
          | .error e => .error e
          | .ok tokens =>
            .ok (⟨tokens,
                  sorted.map (fun p => (p.begin_ : Int)),
                  sorted.map (fun p => (p.end_ : Int))⟩,
                 sorted.map (fun p => p.ent_type))

/-- The decoder's output DataFrame: the `token_span` column plus, when an
entity-type column name was given, a column of that name holding the
carried entity-type values. -/
structure IobResult where
  token_span : TokenSpanArray
  typeCol : Option (String × List String)
deriving DecidableEq

/-- `iob_to_spans`: runs the core and packages the result; when
`entity_type_col_name` is `None` the output has no type column, otherwise
the type values are emitted under that name. -/
def iobToSpans (tf : TokenFeatures) (iob_col_name char_span_col_name : String)
    (entity_type_col_name : Option String) : Except String IobResult :=
  match iobToSpansCore tf iob_col_name char_span_col_name with
  | .error e => .error e
  | .ok p =>
    .ok ⟨p.1, entity_type_col_name.map (fun nm => (nm, p.2))⟩

/-- A six-token token table for the worked decoder example. -/
def ctoks6 : CharSpanArray :=
  ⟨2, "a b c d e f", [0, 2, 4, 6, 8, 10], [1, 3, 5, 7, 9, 11]⟩

/-- The token-features table of the spec's worked decoder example:
tags `["O","B","I","O","B","O"]` over six tokens. -/
def exTf7 : TokenFeatures := ⟨[
  ("ent_iob", .strs ["O", "B", "I", "O", "B", "O"]),
  ("ent_type", .strs ["", "PER", "", "", "LOC", ""]),
  ("char_span", .spans ctoks6)]⟩

/-- A table whose tag column ends in a `"B"` at the last token. -/
def tfC1 : TokenFeatures := ⟨[
  ("ent_iob", .strs ["O", "B"]),
  ("ent_type", .strs ["", ""]),
  ("char_span", .spans ctoksA)]⟩

/-- A table whose trailing `"I"` run reaches the last token. -/
def tfC1b : TokenFeatures := ⟨[
  ("ent_iob", .strs ["B", "I"]),
  ("ent_type", .strs ["", ""]),
  ("char_span", .spans ctoksA)]⟩

/-- A table carrying two different type columns, to separate the column the
decoder reads (`"ent_type"`) from the column name it is asked to emit. -/
def tfC10 : TokenFeatures := ⟨[
  ("ent_iob", .strs ["B", "O"]),
  ("ent_type", .strs ["PER", "X"]),
  ("other_types", .strs ["LOC", "Y"]),
  ("char_span", .spans ctoksA)]⟩

/-- Element type of a tensor: a numeric value or NaN. The only float
operation the source applies to tensor elements is `np.isnan`, so NaN is
modelled as the absent value `none` and `np.isnan` as `Option.isNone`. -/
abbrev TensorElem : Type := Option Int

mutual

/-- A numpy `ndarray` as a nested structure: either a 0-d scalar or an
array of subarrays (one per position along the leading axis). -/
inductive NDArr (α : Type) where
  | scalar : α → NDArr α
  | arr : NDList α → NDArr α

/-- The children of an `NDArr.arr` node (an inlined list, so that all
recursions below are structural and compute in the kernel). -/
inductive NDList (α : Type) where
  | nil : NDList α
  | cons : NDArr α → NDList α → NDList α

end

/-- Builds an `NDList` from a Lean list of subarrays. -/
def NDList.ofList {α : Type} : List (NDArr α) → NDList α
  | [] => .nil
  | x :: xs => .cons x (NDList.ofList xs)

/-- The Lean list of subarrays of an `NDList`. -/
def NDList.toList {α : Type} : NDList α → List (NDArr α)
  | .nil => []
  | .cons x xs => x :: NDList.toList xs

mutual

/-- Elementwise `np.isnan` over a tensor block. -/
def ndIsnan : NDArr TensorElem → NDArr Bool
  | .scalar v => .scalar v.isNone
  | .arr l => .arr (ndIsnanList l)

def ndIsnanList : NDList TensorElem → NDList Bool
  | .nil => .nil
  | .cons x xs => .cons (ndIsnan x) (ndIsnanList xs)

end

mutual

/-- Elementwise boolean `or` of two equal-shape boolean blocks (the
combining step of `np.any` along an axis). The mismatched-shape fallbacks
are unreachable for the equal-shape blocks `np.any` combines. -/
def ndZipOr : NDArr Bool → NDArr Bool → NDArr Bool
  | .scalar a, .scalar b => .scalar (a || b)
  | .arr xs, .arr ys => .arr (ndZipOrList xs ys)
  | .scalar a, .arr _ => .scalar a
  | .arr xs, .scalar _ => .arr xs

def ndZipOrList : NDList Bool → NDList Bool → NDList Bool
  | .nil, _ => .nil
  | .cons _ _, .nil => .nil
  | .cons x xs, .cons y ys => .cons (ndZipOr x y) (ndZipOrList xs ys)

end

/-- `or`-reduction of a block along its leading axis (`np.any(x, axis=0)`
seen from inside a row): folds the subarrays together elementwise. -/
def foldZipOr : NDArr Bool → NDList Bool → NDArr Bool
  | acc, .nil => acc
  | acc, .cons y ys => foldZipOr (ndZipOr acc y) ys

/-- `np.any` along the first axis of one row (empty rows reduce to the
scalar `false`, matching `np.any` over an empty axis of a 1-d row). -/
def anyAxis0 : NDArr Bool → NDArr Bool
  | .arr .nil => .scalar false
  | .arr (.cons x xs) => foldZipOr x xs
  | .scalar b => .scalar b

def anyAxis0List : NDList Bool → NDList Bool
  | .nil => .nil
  | .cons r rs => .cons (anyAxis0 r) (anyAxis0List rs)

/-- `np.any(mask, axis=1)` on the whole block: reduces axis 1, i.e. reduces
each row (= each entry along axis 0) along its own leading axis. -/
def anyAxis1 : NDArr Bool → NDArr Bool
  | .arr rows => .arr (anyAxis0List rows)
  | .scalar b => .scalar b

mutual

/-- Whether a block contains any NaN entry (the spec's notion of a row
containing a NaN-equivalent value). -/
def anyNaN : NDArr TensorElem → Bool
  | .scalar v => v.isNone
  | .arr l => anyNaNList l

def anyNaNList : NDList TensorElem → Bool
  | .nil => false
  | .cons x xs => anyNaN x || anyNaNList xs

end

/-- A Pandas `TensorArray` (`tensor.py`): one contiguous block whose outer
dimension counts the rows. -/
structure TensorArray where
  tensor : NDArr TensorElem

/-- `TensorArray.isna`: `np.any(np.isnan(self._tensor), axis=1)`. -/
def TensorArray.isna (t : TensorArray) : NDArr Bool :=
  anyAxis1 (ndIsnan t.tensor)

/-- One scalar boolean per row: each row mapped to whether it contains a
NaN entry. -/
def rowMaskList : NDList TensorElem → NDList Bool
  | .nil => .nil
  | .cons r rs => .cons (.scalar (anyNaN r)) (rowMaskList rs)

/-- Modelled from the spec: the row null mask the spec describes for
`is_missing_mask()` — one boolean per row, true iff the row contains any
NaN-equivalent value. Used as the reference point for `TensorArray.isna`. -/
def isnaRowMask (t : TensorArray) : NDArr Bool :=
  match t.tensor with
  | .arr rows => .arr (rowMaskList rows)
  | .scalar v => .scalar v.isNone

/-- `TensorArray.take`: raises `NotImplementedError` whenever `allow_fill`
is true (before even looking at the indices), raises when a `fill_value` is
passed, and otherwise gathers rows with `np.take(..., axis=0)`. -/
def TensorArray.take (t : TensorArray) (indices : List Int)
    (allow_fill : Bool) (fill_value : Option Int) :
    Except String TensorArray :=
  if allow_fill then .error "allow_fill not currently supported"
  else if fill_value.isSome then .error "fill_value is not currently supported"
  else match t.tensor with
    | .arr rows =>
      match npTake rows.toList indices with
      | .error e => .error e
      | .ok sel => .ok ⟨.arr (NDList.ofList sel)⟩
    | .scalar _ => .error "cannot take rows of a 0-d tensor"

/-- Builds the 2-d tensor block whose rows are the given flat lists. -/
def TensorArray.mk2D (rows : List (List TensorElem)) : TensorArray :=
  ⟨.arr (NDList.ofList
    (rows.map (fun r => NDArr.arr (NDList.ofList (r.map NDArr.scalar)))))⟩

/-- A concrete 3-d tensor block of shape (2, 1, 1), one NaN in row 0. -/
def t3dEx : TensorArray :=
  ⟨.arr (NDList.ofList
    [.arr (NDList.ofList [.arr (NDList.ofList [.scalar none])]),
     .arr (NDList.ofList [.arr (NDList.ofList [.scalar (some 7)])])])⟩

/-- Observable used to separate `isna`'s actual output from a per-row
boolean mask: whether the first row of the result is a scalar. -/
def headIsScalar : NDArr Bool → Bool
  | .arr (.cons (.scalar _) _) => true
  | _ => false

/-- A one-row 2-d `TensorArray`, witness data for the `take` claims. -/
def tEx1 : TensorArray := ⟨.arr (NDList.ofList
  [.arr (NDList.ofList [.scalar (some 1), .scalar (some 2)])])⟩

/-- A one-row span array over `ctoksA`, and a second row continuing it. -/
def tsA5 : TokenSpanArray := ⟨ctoksA, [0], [1]⟩

/-- A second one-row span array over the same token table object. -/
def tsB5 : TokenSpanArray := ⟨ctoksA, [1], [2]⟩

/-- A span array over `ctoksB`: same token contents as `ctoksA`, but a
different token table object. -/
def tsBad5 : TokenSpanArray := ⟨ctoksB, [1], [2]⟩

/-- The per-row hypotheses under which a `TokenSpanArray` is well-formed:
the begin/end arrays are parallel, the token table's arrays are parallel,
and every row `[b, e)` satisfies `0 ≤ b ≤ e ≤ len(tokens)` and addresses an
existing begin token (`b < len(tokens)`). -/
def validRows (a : TokenSpanArray) : Prop :=
  a.end_tokens.length = a.begin_tokens.length ∧
  a.tokens.ends.length = a.tokens.begins.length ∧
  ∀ j, j < a.begin_tokens.length →
    (0 ≤ a.begin_tokens.getD j 0 ∧
     a.begin_tokens.getD j 0 ≤ a.end_tokens.getD j 0 ∧
     a.end_tokens.getD j 0 ≤ (a.tokens.begins.length : Int) ∧
     a.begin_tokens.getD j 0 < (a.tokens.begins.length : Int))

instance validRows_decidable (a : TokenSpanArray) : Decidable (validRows a) := by
  unfold validRows
  infer_instance

theorem mem_insertByBegin {x p : PendingEntity} {l : List PendingEntity}
    (h : x ∈ insertByBegin p l) : x = p ∨ x ∈ l := by
  induction l with
  | nil => simpa [insertByBegin] using h
  | cons q qs ih =>
    simp only [insertByBegin] at h
    split at h
    · rcases List.mem_cons.mp h with h | h
      · exact Or.inl h
      · exact Or.inr h
    · rcases List.mem_cons.mp h with h | h
      · exact Or.inr (h ▸ List.mem_cons_self q qs)
      · rcases ih h with h' | h'
        · exact Or.inl h'
        · exact Or.inr (List.mem_cons_of_mem q h')

theorem pairwise_insertByBegin (p : PendingEntity) (l : List PendingEntity)
    (h : List.Pairwise (fun a b => a.begin_ ≤ b.begin_) l) :
    List.Pairwise (fun a b => a.begin_ ≤ b.begin_) (insertByBegin p l) := by
  induction l with
  | nil => simp [insertByBegin]
  | cons q qs ih =>
    rcases List.pairwise_cons.mp h with ⟨hq, hqs⟩
    simp only [insertByBegin]
    split
    · rename_i hle
      refine List.pairwise_cons.mpr ⟨?_, h⟩
      intro b hb
      rcases List.mem_cons.mp hb with hb | hb
      · exact hb ▸ hle
      · exact le_trans hle (hq _ hb)
    · rename_i hle
      refine List.pairwise_cons.mpr ⟨?_, ih hqs⟩
      intro b hb
      rcases mem_insertByBegin hb with h' | h'
      · subst h'
        omega
      · exact hq _ h'

theorem pairwise_sortByBegin (l : List PendingEntity) :
    List.Pairwise (fun a b => a.begin_ ≤ b.begin_) (sortByBegin l) := by
  induction l with
  | nil => simp [sortByBegin]
  | cons p ps ih => exact pairwise_insertByBegin p (sortByBegin ps) ih

theorem iobToSpansCore_ok (tf : TokenFeatures) (i c : String)
    (p : TokenSpanArray × List String)
    (h : iobToSpansCore tf i c = .ok p) :
    ∃ ents toks,
      p = (⟨toks, (sortByBegin ents).map (fun q => (q.begin_ : Int)),
                  (sortByBegin ents).map (fun q => (q.end_ : Int))⟩,
           (sortByBegin ents).map (fun q => q.ent_type)) := by
  simp only [iobToSpansCore] at h
  repeat' split at h
  all_goals try exact Except.noConfusion h
  injection h with h'
  exact ⟨_, _, h'.symm⟩

/-- Claim C1: the spec requires an out-of-range lookahead to be treated as
`"O"` so that a `"B"` at the final token yields the entity `[1,2)` and a
trailing `"I"` run is closed at the table end, the decoder never failing.
The code instead feeds the out-of-range position to `.iloc`, which raises:
both boundary inputs make `iob_to_spans` fail with an out-of-bounds
positional indexing error instead of producing the entity. -/
theorem claim_C1_theorem :
    iobToSpans tfC1 "ent_iob" "char_span" (some "ent_type") =
      .error "positional indexers are out-of-bounds" ∧
    iobToSpans tfC1b "ent_iob" "char_span" (some "ent_type") =
      .error "positional indexers are out-of-bounds" :=
  ⟨by decide, by decide⟩

/-- Claim C7: the decoder's entities come out sorted by begin token offset
ascending (begins are distinct since each entity stems from a distinct
`"B"` row, so the tie-break clause is vacuous), and the worked example
`["O","B","I","O","B","O"]` yields exactly `[1,3)` then `[4,5)`. -/
theorem claim_C7_theorem :
    (iobToSpans exTf7 "ent_iob" "char_span" (some "ent_type") =
      .ok ⟨⟨ctoks6, [1, 4], [3, 5]⟩, some ("ent_type", ["PER", "LOC"])⟩) ∧
    (∀ tf i c et r, iobToSpans tf i c et = .ok r →
      List.Pairwise (fun x y => x ≤ y) r.token_span.begin_tokens) := by
  constructor
  · decide
  · intro tf i c et r hr
    unfold iobToSpans at hr
    split at hr
    · exact absurd hr (by simp)
    · rename_i p hcore
      injection hr with hr'
      obtain ⟨ents, toks, hp⟩ := iobToSpansCore_ok tf i c p hcore
      subst hp
      cases hr'
      exact (pairwise_sortByBegin ents).map _
        (fun a b hab => by exact_mod_cast hab)

/-- Claim C7 witness: the sortedness statement applied to the concrete run
of the worked example. -/
theorem claim_C7_witness :
    List.Pairwise (fun x y => x ≤ y)
      (IobResult.token_span
        ⟨⟨ctoks6, [1, 4], [3, 5]⟩,
         some ("ent_type", ["PER", "LOC"])⟩).begin_tokens :=
  claim_C7_theorem.2 exTf7 "ent_iob" "char_span" (some "ent_type") _
    claim_C7_theorem.1

/-- Claim C10: the decoder reads the per-entity type values from the column
literally named `"ent_type"` no matter what `entity_type_col_name` is
passed; the parameter only renames the emitted column (first conjunct) or
suppresses it (second conjunct). Concretely, on a table that also has an
`"other_types"` column with different values, asking for `"other_types"`
still emits the `"ent_type"` values (`"PER"`, not `"LOC"`). -/
theorem claim_C10_theorem :
    (∀ tf i c nm,
      iobToSpans tf i c (some nm) =
        (iobToSpans tf i c (some "ent_type")).map
          (fun r => ⟨r.token_span, r.typeCol.map (fun q => (nm, q.2))⟩)) ∧
    (∀ tf i c nm,
      iobToSpans tf i c none =
        (iobToSpans tf i c (some nm)).map
          (fun r => ⟨r.token_span, none⟩)) ∧
    iobToSpans tfC10 "ent_iob" "char_span" (some "other_types") =
      .ok ⟨⟨ctoksA, [0], [1]⟩, some ("other_types", ["PER"])⟩ := by
  refine ⟨?_, ?_, by decide⟩
  · intro tf i c nm
    unfold iobToSpans
    cases iobToSpansCore tf i c <;> simp [Except.map]
  · intro tf i c nm
    unfold iobToSpans
    cases iobToSpansCore tf i c <;> simp [Except.map]

/-- Claim C2: the claim states that `TokenSpanArray` construction fails
with `InvalidTokenRange` whenever `begin_token[i] > end_token[i]` or
`end_token[i] > len(tokens)`. Counterexample: the row `[5, 3)` violates
both bounds over the two-token table, yet construction succeeds — the
constructor stores the arrays without any validation. -/
theorem claim_C2_counterexample :
    TokenSpanArray.init ctoksA [5] [3] = .ok ⟨ctoksA, [5], [3]⟩ ∧
    ¬ ((5 : Int) ≤ 3) ∧ ¬ ((3 : Int) ≤ 2) := by
  refine ⟨rfl, by decide, by decide⟩

/-- Claim C2 (amended): construction from raw
`(tokens, begin_token, end_token)` sequences performs no validation at all;
it always succeeds and stores the given sequences unchanged. -/
theorem claim_C2_theorem (tokens : CharSpanArray)
    (begin_tokens end_tokens : List Int) :
    TokenSpanArray.init tokens begin_tokens end_tokens =
      .ok ⟨tokens, begin_tokens, end_tokens⟩ := rfl

theorem npGetItem_natCast {α : Type} (xs : List α) (a : Nat) (h : a < xs.length) :
    npGetItem xs (a : Int) = .ok (xs.get ⟨a, h⟩) := by
  have hnn : ¬ ((a : Int) < 0) := by omega
  have hv : (npWrap xs.length (a : Int)).toNat = a := by
    simp [npWrap, hnn]
  unfold npGetItem
  split
  · rename_i hc
    simp only [Except.ok.injEq]
    congr 1
  · rename_i hc
    exact absurd ⟨by simp [npWrap, hnn], by simpa [hv] using h⟩ hc

theorem npTake_range' {α : Type} (xs : List α) :
    ∀ (k a : Nat), a + k ≤ xs.length →
      npTake xs ((List.range' a k).map (fun (n : Nat) => (n : Int))) =
        .ok ((xs.drop a).take k)
  | 0, a, _ => by simp [npTake]
  | k + 1, a, h => by
      rw [List.range'_succ]
      simp only [List.map_cons]
      unfold npTake
      have ha : a < xs.length := by omega
      rw [npGetItem_natCast xs a ha]
      rw [npTake_range' xs k (a + 1) (by omega)]
      rw [List.drop_eq_getElem_cons ha, List.take_succ_cons]
      rfl

theorem getItemSeq_ok (a : TokenSpanArray) (item : List Int) (bs es : List Int)
    (h1 : npTake a.begin_tokens item = .ok bs)
    (h2 : npTake a.end_tokens item = .ok es) :
    a.getItemSeq item = .ok ⟨a.tokens, bs, es⟩ := by
  unfold TokenSpanArray.getItemSeq
  rw [h1, h2]

/-- Claim C3: the claim asserts that for both containers, `take` with
`allow_fill=true` on all-non-negative indices succeeds identically to
`allow_fill=false`. Counterexample: `TensorArray.take` raises
`NotImplementedError` whenever `allow_fill` is true — here on the
non-negative index list `[0]`, where `allow_fill=false` succeeds. -/
theorem claim_C3_counterexample :
    TensorArray.take tEx1 [0] true none =
      .error "allow_fill not currently supported" ∧
    (TensorArray.take tEx1 [0] false none).isOk = true :=
  ⟨rfl, rfl⟩

/-- Claim C3 (amended): the equivalence holds for `TokenSpanArray` — with
all indices non-negative, `take` with `allow_fill=true` is the same gather
as with `allow_fill=false` — while `TensorArray.take` fails with
`NotImplementedError` whenever `allow_fill=true`, regardless of indices. -/
theorem claim_C3_theorem :
    (∀ (a : TokenSpanArray) (indices : List Int),
      indices.all (fun i => decide (0 ≤ i)) = true →
      a.take indices true = a.take indices false) ∧
    (∀ (t : TensorArray) (indices : List Int) (fv : Option Int),
      t.take indices true fv = .error "allow_fill not currently supported") := by
  constructor
  · intro a indices h
    simp [TokenSpanArray.take, h]
  · intro t indices fv
    simp [TensorArray.take]

/-- Claim C3 witness: the amended statement at concrete inputs. -/
theorem claim_C3_witness :
    (TokenSpanArray.take ⟨ctoksA, [0, 1], [1, 2]⟩ [1, 0] true =
      TokenSpanArray.take ⟨ctoksA, [0, 1], [1, 2]⟩ [1, 0] false) ∧
    TensorArray.take tEx1 [1, 0] true none =
      .error "allow_fill not currently supported" :=
  ⟨claim_C3_theorem.1 ⟨ctoksA, [0, 1], [1, 2]⟩ [1, 0] (by decide),
   claim_C3_theorem.2 tEx1 [1, 0] none⟩

/-- Claim C5: `_concat_same_type` fails on the empty list; succeeds with
the elementwise concatenation of the begin/end sequences when every
input's token table is structurally identical to the first's; and fails
when any input's token table differs — including tables with equal
contents but distinct identity. -/
theorem claim_C5_theorem :
    (TokenSpanArray.concat_same_type [] =
      .error "cannot concatenate zero TokenSpanArrays") ∧
    (∀ (first : TokenSpanArray) (rest : List TokenSpanArray),
      (∀ c ∈ first :: rest, c.tokens = first.tokens) →
      TokenSpanArray.concat_same_type (first :: rest) =
        .ok ⟨first.tokens,
             ((first :: rest).map (fun a => a.begin_tokens)).flatten,
             ((first :: rest).map (fun a => a.end_tokens)).flatten⟩) ∧
    (∀ (first : TokenSpanArray) (rest : List TokenSpanArray),
      (∃ c ∈ first :: rest, c.tokens ≠ first.tokens) →
      TokenSpanArray.concat_same_type (first :: rest) =
        .error "Can only concatenate spans that are over the same set of tokens") := by
  refine ⟨rfl, ?_, ?_⟩
  · intro first rest h
    have hall : ((first :: rest).all
        (fun c => decide (c.tokens = first.tokens))) = true :=
      List.all_eq_true.mpr (fun c hc => decide_eq_true (h c hc))
    simp only [TokenSpanArray.concat_same_type, hall, if_true]
  · intro first rest h
    have hall : ((first :: rest).all
        (fun c => decide (c.tokens = first.tokens))) = false := by
      rcases h with ⟨c, hc, hne⟩
      exact List.all_eq_false.mpr ⟨c, hc, by simpa using hne⟩
    simp only [TokenSpanArray.concat_same_type, hall, Bool.false_eq_true,
      if_false]

/-- Claim C5 witness: a same-tokens concatenation succeeds with the
concatenated offsets; an equal-contents but distinct-identity token table
makes concatenation fail. -/
theorem claim_C5_witness :
    TokenSpanArray.concat_same_type [tsA5, tsB5] =
      .ok ⟨tsA5.tokens,
           (([tsA5, tsB5]).map (fun a => a.begin_tokens)).flatten,
           (([tsA5, tsB5]).map (fun a => a.end_tokens)).flatten⟩ ∧
    TokenSpanArray.concat_same_type [tsA5, tsBad5] =
      .error "Can only concatenate spans that are over the same set of tokens" :=
  ⟨claim_C5_theorem.2.1 tsA5 [tsB5] (by decide),
   claim_C5_theorem.2.2 tsA5 [tsBad5] (by decide)⟩

/-- Claim C6: for same-token-table arrays `A` and `B`, slicing
`concat([A, B])` by the index range `[0, len(A))` gives back `A`, and by
`[len(A), len(A)+len(B))` gives back `B`. The length hypotheses state that
each input's begin/end sequences are parallel (equal length), which every
array built by the library satisfies. -/
theorem claim_C6_theorem :
    ∀ (A B C : TokenSpanArray),
      A.end_tokens.length = A.begin_tokens.length →
      B.end_tokens.length = B.begin_tokens.length →
      B.tokens = A.tokens →
      TokenSpanArray.concat_same_type [A, B] = .ok C →
      C.getItemSeq ((List.range' 0 A.begin_tokens.length).map
          (fun (n : Nat) => (n : Int))) = .ok A ∧
      C.getItemSeq ((List.range' A.begin_tokens.length B.begin_tokens.length).map
          (fun (n : Nat) => (n : Int))) = .ok B := by
  intro A B C hA hB htok hcat
  have hall : (([A, B]).all (fun c => decide (c.tokens = A.tokens))) = true := by
    simp [htok]
  simp only [TokenSpanArray.concat_same_type, hall, if_true] at hcat
  injection hcat with hcat'
  have hCb : C.begin_tokens = A.begin_tokens ++ B.begin_tokens := by
    rw [← hcat']; simp
  have hCe : C.end_tokens = A.end_tokens ++ B.end_tokens := by
    rw [← hcat']; simp
  have hCt : C.tokens = A.tokens := by rw [← hcat']
  constructor
  · have hb : npTake C.begin_tokens
        ((List.range' 0 A.begin_tokens.length).map (fun (n : Nat) => (n : Int))) =
        .ok A.begin_tokens := by
      rw [hCb, npTake_range' _ _ _ (by simp)]
      simp [List.take_left]
    have he : npTake C.end_tokens
        ((List.range' 0 A.begin_tokens.length).map (fun (n : Nat) => (n : Int))) =
        .ok A.end_tokens := by
      rw [hCe, npTake_range' _ _ _ (by simp; omega)]
      rw [List.drop_zero, ← hA, List.take_left]
    rw [getItemSeq_ok C _ _ _ hb he, hCt]
  · have hb : npTake C.begin_tokens
        ((List.range' A.begin_tokens.length B.begin_tokens.length).map
          (fun (n : Nat) => (n : Int))) = .ok B.begin_tokens := by
      rw [hCb, npTake_range' _ _ _ (by simp)]
      rw [List.drop_left, List.take_length]
    have he : npTake C.end_tokens
        ((List.range' A.begin_tokens.length B.begin_tokens.length).map
          (fun (n : Nat) => (n : Int))) = .ok B.end_tokens := by
      rw [hCe, npTake_range' _ _ _ (by simp; omega)]
      rw [← hA, List.drop_left, ← hB, List.take_length]
    rw [getItemSeq_ok C _ _ _ hb he, hCt, ← htok]

/-- Claim C6 witness: the round-trip at concrete one-row arrays. -/
theorem claim_C6_witness :
    TokenSpanArray.getItemSeq ⟨ctoksA, [0, 1], [1, 2]⟩
      ((List.range' 0 1).map (fun (n : Nat) => (n : Int))) = .ok tsA5 ∧
    TokenSpanArray.getItemSeq ⟨ctoksA, [0, 1], [1, 2]⟩
      ((List.range' 1 1).map (fun (n : Nat) => (n : Int))) = .ok tsB5 :=
  claim_C6_theorem tsA5 tsB5 ⟨ctoksA, [0, 1], [1, 2]⟩ rfl rfl rfl (by decide)

theorem npGetItem_isOk {α : Type} (xs : List α) (i : Int) :
    (∃ x, npGetItem xs i = .ok x) ↔
      (-(xs.length : Int) ≤ i ∧ i < (xs.length : Int)) := by
  unfold npGetItem
  split
  · rename_i hc
    constructor
    · intro _
      unfold npWrap at hc
      split at hc <;> omega
    · intro _
      exact ⟨_, rfl⟩
  · rename_i hc
    constructor
    · rintro ⟨x, hx⟩
      exact absurd hx (by simp)
    · intro hr
      exfalso
      apply hc
      unfold npWrap
      constructor
      · split <;> omega
      · split <;> omega

theorem npGetItem_ok_val {α : Type} {xs : List α} {i : Int} {x : α}
    (h : npGetItem xs i = .ok x) :
    0 ≤ npWrap xs.length i ∧ xs.get? (npWrap xs.length i).toNat = some x := by
  unfold npGetItem at h
  split at h
  · rename_i hc
    injection h with h'
    exact ⟨hc.1, by rw [List.get?_eq_get hc.2, h']⟩
  · exact absurd h (by simp)

theorem npWrap_nonneg {n : Nat} {i : Int} (h : 0 ≤ i) : npWrap n i = i := by
  unfold npWrap
  rw [if_neg (by omega)]

theorem tokenSpan_init_ok (tokens : CharSpanArray) (b e : Int)
    (hlen : tokens.ends.length = tokens.begins.length)
    (h0 : 0 ≤ b) (hbe : b ≤ e) (hel : e ≤ (tokens.begins.length : Int))
    (hb : b < (tokens.begins.length : Int)) :
    ∃ s, TokenSpan.init tokens b e = .ok s := by
  obtain ⟨x, hx⟩ := (npGetItem_isOk tokens.begins b).mpr (by omega)
  unfold TokenSpan.init
  rw [hx]
  by_cases heq : b = e
  · subst heq
    simp only [beq_self_eq_true]
    exact ⟨_, rfl⟩
  · obtain ⟨y, hy⟩ := (npGetItem_isOk tokens.ends (e - 1)).mpr
      (by rw [hlen]; omega)
    have hne : (b == e) = false := by simp [heq]
    rw [hne]
    simp only [Bool.false_eq_true, if_false]
    rw [hy]
    exact ⟨_, rfl⟩

/-- Claim C9: the claim says `get(i)` fails for every negative `i`.
Counterexample: on a two-row array, `get(-1)` succeeds — numpy scalar
indexing resolves `-1` end-relative to the last row. -/
theorem claim_C9_counterexample :
    TokenSpanArray.getItemInt ⟨ctoksA, [0, 1], [1, 2]⟩ (-1) =
      .ok ⟨"foo bar", 4, 7, ctoksA, 1, 2⟩ := by decide

/-- Claim C9 (amended): on a well-formed array of length `n`, `get(i)`
succeeds iff `-n ≤ i < n` — negative indices in `[-n, 0)` are resolved
end-relative rather than failing; only `i < -n` or `i ≥ n` raise. -/
theorem claim_C9_theorem (a : TokenSpanArray) (i : Int) (hv : validRows a) :
    (∃ s, a.getItemInt i = .ok s) ↔
      (-(a.length : Int) ≤ i ∧ i < (a.length : Int)) := by
  obtain ⟨hlen, htok, hrows⟩ := hv
  constructor
  · rintro ⟨s, hs⟩
    unfold TokenSpanArray.getItemInt at hs
    cases hbx : npGetItem a.begin_tokens i with
    | error e => rw [hbx] at hs; exact absurd hs (by simp)
    | ok b => exact (npGetItem_isOk a.begin_tokens i).mp ⟨b, hbx⟩
  · rintro ⟨h1, h2⟩
    obtain ⟨b, hb⟩ := (npGetItem_isOk a.begin_tokens i).mpr ⟨h1, h2⟩
    obtain ⟨e, he⟩ := (npGetItem_isOk a.end_tokens i).mpr
      (by rw [hlen]; exact ⟨h1, h2⟩)
    obtain ⟨hb0, hbv⟩ := npGetItem_ok_val hb
    obtain ⟨he0, hev⟩ := npGetItem_ok_val he
    rw [hlen] at hev
    set j := (npWrap a.begin_tokens.length i).toNat with hj
    obtain ⟨hjlt, -⟩ := List.get?_eq_some.mp hbv
    have hbD : a.begin_tokens.getD j 0 = b := by
      rw [List.getD_eq_getElem?_getD, ← List.get?_eq_getElem?, hbv]
      rfl
    have heD : a.end_tokens.getD j 0 = e := by
      rw [List.getD_eq_getElem?_getD, ← List.get?_eq_getElem?, hev]
      rfl
    obtain ⟨hr0, hrbe, hre, hrb⟩ := hrows j hjlt
    rw [hbD] at hr0 hrbe hrb
    rw [heD] at hrbe hre
    obtain ⟨s, hs⟩ := tokenSpan_init_ok a.tokens b e htok hr0 hrbe hre hrb
    refine ⟨s, ?_⟩
    unfold TokenSpanArray.getItemInt
    rw [hb, he]
    exact hs

/-- Claim C9 witness: on a concrete well-formed two-row array, `get(0)`
succeeds and `get(5)` fails. -/
theorem claim_C9_witness :
    (∃ s, TokenSpanArray.getItemInt ⟨ctoksA, [0, 1], [1, 2]⟩ 0 = .ok s) ∧
    ¬ (∃ s, TokenSpanArray.getItemInt ⟨ctoksA, [0, 1], [1, 2]⟩ 5 = .ok s) :=
  ⟨(claim_C9_theorem ⟨ctoksA, [0, 1], [1, 2]⟩ 0 (by decide)).mpr (by decide),
   fun h =>
    absurd ((claim_C9_theorem ⟨ctoksA, [0, 1], [1, 2]⟩ 5 (by decide)).mp h)
      (by decide)⟩

theorem npTake_ok_get {α : Type} {xs : List α} :
    ∀ {is : List Int} {l : List α}, npTake xs is = .ok l →
      ∀ (k : Nat) (i : Int), is.get? k = some i →
        ∃ x, l.get? k = some x ∧ npGetItem xs i = .ok x := by
  intro is
  induction is with
  | nil =>
    intro l h k i hk
    simp at hk
  | cons i0 is ih =>
    intro l h k i hk
    unfold npTake at h
    cases hg : npGetItem xs i0 with
    | error e =>
      rw [hg] at h
      exact absurd h (by simp)
    | ok x0 =>
      rw [hg] at h
      cases ht : npTake xs is with
      | error e =>
        rw [ht] at h
        exact absurd h (by simp)
      | ok rest =>
        rw [ht] at h
        injection h with h'
        subst h'
        cases k with
        | zero =>
          simp only [List.get?_cons_zero, Option.some.injEq] at hk
          subst hk
          exact ⟨x0, rfl, hg⟩
        | succ k' =>
          simp only [List.get?_cons_succ] at hk ⊢
          exact ih ht k' i hk

theorem maskedReplace_get? :
    ∀ (bs es xs ys : List Int) (k : Nat) (b e x y : Int),
      bs.get? k = some b → es.get? k = some e →
      xs.get? k = some x → ys.get? k = some y →
      (maskedReplace bs es xs ys).get? k = some (if e == b then x else y) := by
  intro bs
  induction bs with
  | nil =>
    intro es xs ys k b e x y hb _ _ _
    simp at hb
  | cons b0 bs ih =>
    intro es xs ys k b e x y hb he hx hy
    cases es with
    | nil => simp at he
    | cons e0 es =>
      cases xs with
      | nil => simp at hx
      | cons x0 xs =>
        cases ys with
        | nil => simp at hy
        | cons y0 ys =>
          unfold maskedReplace
          cases k with
          | zero =>
            simp only [List.get?_cons_zero, Option.some.injEq] at hb he hx hy
            subst hb
            subst he
            subst hx
            subst hy
            rfl
          | succ k' =>
            simp only [List.get?_cons_succ] at hb he hx hy ⊢
            exact ih es xs ys k' b e x y hb he hx hy

/-- Claim C4: on a well-formed row `[b, e)` (the token-range invariant),
the derived character begin is `tokens.begin[b]`; the derived character end
is `tokens.end[e-1]` when `e > b` and collapses to the derived begin when
`e == b`; and the single-row `TokenSpan` view agrees. The array-level
conclusions are phrased for any successful evaluation of the memoized
`begin`/`end` properties. -/
theorem claim_C4_theorem
    (tokens : CharSpanArray) (bs es : List Int) (i : Nat) (b e : Int)
    (hib : bs.get? i = some b) (hie : es.get? i = some e)
    (h0 : 0 ≤ b) (hbe : b ≤ e) (hel : e ≤ (tokens.begins.length : Int))
    (htok : tokens.ends.length = tokens.begins.length) :
    (∀ l, TokenSpanArray.begin ⟨tokens, bs, es⟩ = .ok l →
        l.get? i = tokens.begins.get? b.toNat) ∧
    (∀ l, TokenSpanArray.end_ ⟨tokens, bs, es⟩ = .ok l →
        (b < e → l.get? i = tokens.ends.get? (e - 1).toNat) ∧
        (b = e → l.get? i = tokens.begins.get? b.toNat)) ∧
    (∀ s, TokenSpan.init tokens b e = .ok s →
        tokens.begins.get? b.toNat = some s.begin_ ∧
        (b < e → tokens.ends.get? (e - 1).toNat = some s.end_) ∧
        (b = e → s.end_ = s.begin_)) := by
  refine ⟨?_, ?_, ?_⟩
  · intro l hl
    obtain ⟨x, hx1, hx2⟩ := npTake_ok_get hl i b hib
    obtain ⟨-, hxv⟩ := npGetItem_ok_val hx2
    rw [npWrap_nonneg h0] at hxv
    rw [hx1, hxv]
  · intro l hl
    unfold TokenSpanArray.end_ at hl
    cases hr : npTake tokens.ends (es.map (fun e => e - 1)) with
    | error e2 =>
      rw [hr] at hl
      exact absurd hl (by simp)
    | ok ret =>
      rw [hr] at hl
      cases hbg : TokenSpanArray.begin ⟨tokens, bs, es⟩ with
      | error e2 =>
        rw [hbg] at hl
        exact absurd hl (by simp)
      | ok beg =>
        rw [hbg] at hl
        injection hl with hl'
        subst hl'
        obtain ⟨x, hx1, hx2⟩ := npTake_ok_get hbg i b hib
        obtain ⟨-, hxv⟩ := npGetItem_ok_val hx2
        rw [npWrap_nonneg h0] at hxv
        obtain ⟨y, hy1, hy2⟩ := npTake_ok_get hr i (e - 1)
          (by rw [List.get?_map, hie]; rfl)
        have hmask := maskedReplace_get? bs es beg ret i b e x y hib hie hx1 hy1
        constructor
        · intro hlt
          have hne : (e == b) = false := by
            simp only [beq_eq_false_iff_ne, ne_eq]
            omega
          rw [hne] at hmask
          simp only [Bool.false_eq_true, if_false] at hmask
          obtain ⟨-, hyv⟩ := npGetItem_ok_val hy2
          rw [npWrap_nonneg (by omega)] at hyv
          rw [hmask, hyv]
        · intro heq
          have heqb : (e == b) = true := by simp [heq]
          rw [heqb] at hmask
          simp only [if_true] at hmask
          rw [hmask, hxv]
  · intro s hs
    unfold TokenSpan.init at hs
    cases hx : npGetItem tokens.begins b with
    | error e2 =>
      rw [hx] at hs
      exact absurd hs (by simp)
    | ok x =>
      rw [hx] at hs
      obtain ⟨-, hxv⟩ := npGetItem_ok_val hx
      rw [npWrap_nonneg h0] at hxv
      by_cases heq : b = e
      · have heqb : (b == e) = true := by simp [heq]
        rw [heqb] at hs
        simp only [if_true] at hs
        injection hs with hs'
        subst hs'
        exact ⟨hxv, fun hlt => absurd hlt (by omega), fun _ => rfl⟩
      · have hlt : b < e := by omega
        have hneb : (b == e) = false := by simp [heq]
        rw [hneb] at hs
        simp only [Bool.false_eq_true, if_false] at hs
        cases hy : npGetItem tokens.ends (e - 1) with
        | error e2 =>
          rw [hy] at hs
          exact absurd hs (by simp)
        | ok y =>
          rw [hy] at hs
          injection hs with hs'
          subst hs'
          obtain ⟨-, hyv⟩ := npGetItem_ok_val hy
          rw [npWrap_nonneg (by omega)] at hyv
          exact ⟨hxv, fun _ => hyv, fun heq2 => absurd heq2 heq⟩

/-- Claim C4 witness: the three conclusions evaluated on a concrete
two-row array (one two-token span, one zero-length span). -/
theorem claim_C4_witness :
    ([(0 : Int), 4].get? 0 = ctoksA.begins.get? ((0 : Int)).toNat) ∧
    ([(7 : Int), 4].get? 0 = ctoksA.ends.get? ((2 : Int) - 1).toNat) ∧
    (ctoksA.begins.get? ((0 : Int)).toNat = some (0 : Int)) := by
  have H := claim_C4_theorem ctoksA [0, 1] [2, 1] 0 0 2 rfl rfl (by decide)
    (by decide) (by decide) rfl
  exact ⟨H.1 [0, 4] (by decide), (H.2.1 [7, 4] (by decide)).1 (by decide),
    (H.2.2 ⟨"foo bar", 0, 7, ctoksA, 0, 2⟩ (by decide)).1⟩

theorem ndIsnanList_ofList (l : List (NDArr TensorElem)) :
    ndIsnanList (NDList.ofList l) = NDList.ofList (l.map ndIsnan) := by
  induction l with
  | nil => rfl
  | cons x xs ih => simp [NDList.ofList, ndIsnanList, ih]

theorem anyAxis0List_ofList (l : List (NDArr Bool)) :
    anyAxis0List (NDList.ofList l) = NDList.ofList (l.map anyAxis0) := by
  induction l with
  | nil => rfl
  | cons x xs ih => simp [NDList.ofList, anyAxis0List, ih]

theorem rowMaskList_ofList (l : List (NDArr TensorElem)) :
    rowMaskList (NDList.ofList l) =
      NDList.ofList (l.map (fun r => NDArr.scalar (anyNaN r))) := by
  induction l with
  | nil => rfl
  | cons x xs ih => simp [NDList.ofList, rowMaskList, ih]

theorem foldZipOr_scalars (b : Bool) (bs : List Bool) :
    foldZipOr (NDArr.scalar b) (NDList.ofList (bs.map NDArr.scalar)) =
      NDArr.scalar (bs.foldl (fun x y => x || y) b) := by
  induction bs generalizing b with
  | nil => rfl
  | cons c cs ih => simp [NDList.ofList, foldZipOr, ndZipOr, ih]

theorem foldl_or_eq_any (b : Bool) (l : List Bool) :
    l.foldl (fun x y => x || y) b = (b || l.any (fun x => x)) := by
  induction l generalizing b with
  | nil => simp
  | cons c cs ih =>
    rw [List.foldl_cons, List.any_cons, ih (b || c)]
    cases b <;> cases c <;> simp

theorem any_map_isNone (r : List TensorElem) :
    ((r.map (fun v => v.isNone)).any (fun x => x)) =
      r.any (fun v => v.isNone) := by
  induction r with
  | nil => rfl
  | cons v vs ih => simp [List.any_cons, ih]

theorem anyAxis0_scalars (bs : List Bool) :
    anyAxis0 (NDArr.arr (NDList.ofList (bs.map NDArr.scalar))) =
      NDArr.scalar (bs.any (fun x => x)) := by
  cases bs with
  | nil => rfl
  | cons c cs =>
    simp only [List.map_cons, NDList.ofList, anyAxis0]
    rw [foldZipOr_scalars, foldl_or_eq_any, List.any_cons]

theorem anyNaNList_ofList_scalars (r : List TensorElem) :
    anyNaNList (NDList.ofList (r.map NDArr.scalar)) =
      r.any (fun v => v.isNone) := by
  induction r with
  | nil => rfl
  | cons v vs ih => simp [NDList.ofList, anyNaNList, anyNaN, ih]

/-- Claim C8: the claim asserts the row mask semantics of `isna` for rows
of any shape. Counterexample: on the 3-d block `t3dEx`,
`np.any(np.isnan(x), axis=1)` reduces only axis 1 of the whole block and
returns a nested (2-d) result, not one boolean per row. -/
theorem claim_C8_counterexample :
    TensorArray.isna t3dEx ≠ isnaRowMask t3dEx := by
  intro h
  exact Bool.noConfusion (congrArg headIsScalar h)

/-- Claim C8 (amended): for 2-d blocks — every row a flat vector — `isna`
computes exactly the spec's row mask: one boolean per row, true iff the
row contains a NaN entry. -/
theorem claim_C8_theorem (rows : List (List TensorElem)) :
    TensorArray.isna (TensorArray.mk2D rows) =
      isnaRowMask (TensorArray.mk2D rows) := by
  unfold TensorArray.isna TensorArray.mk2D isnaRowMask
  simp only [ndIsnan, anyAxis1]
  rw [ndIsnanList_ofList, anyAxis0List_ofList, rowMaskList_ofList,
    List.map_map, List.map_map, List.map_map]
  congr 1
  congr 1
  apply List.map_congr_left
  intro r _
  simp only [Function.comp_apply]
  rw [ndIsnan]
  rw [ndIsnanList_ofList]
  have hm : (r.map NDArr.scalar).map ndIsnan =
      (r.map (fun v => v.isNone)).map NDArr.scalar := by
    rw [List.map_map, List.map_map]
    apply List.map_congr_left
    intro v _
    rfl
  rw [hm, anyAxis0_scalars]
  rw [anyNaN, anyNaNList_ofList_scalars, any_map_isNone]
